import Mathlib

/-!
Verification of the FTT-Flumen live vibration dashboard (src/main.py and
src/test.py) against its specification.

The embedding models:
* JSON values as decoded by `json.loads` (`JVal`);
* the Python `collections.deque` with a `maxlen` bound (`dequeAppend`,
  `dequeExtend`);
* the MQTT `on_message` handlers of both files (`main_on_message` stages
  samples in local lists and extends the deques only on full success;
  `test_on_message` appends to the deques directly while parsing);
* the render-loop panel gating of main.py (`render_tick`);
* the spectral peak pipeline: scipy's `_local_maxima_1d` / `find_peaks`
  with a height threshold, `np.argsort`-based top-5 selection, and the
  `find_top_harmonics` helper of main.py, in exact rational arithmetic.

Handlers return the resulting buffers together with the list of console
log events they emit, so silent and reported drops are distinguishable.
-/

-- -------- CONFIG (src/main.py lines 13-14, src/test.py lines 12-13) --------

def MAX_POINTS : Nat := 800

def SAMPLE_RATE : Nat := 800

-- -------- JSON values --------

/-- JSON values as produced by `json.loads`: null, booleans, numbers
(modelled as rationals), strings, arrays, and objects (association lists
of string keys). -/
inductive JVal : Type
  | jnull : JVal
  | jbool : Bool → JVal
  | jnum : ℚ → JVal
  | jstr : String → JVal
  | jarr : List JVal → JVal
  | jobj : List (String × JVal) → JVal

-- -------- collections.deque with maxlen --------

/-- Python `collections.deque.append` on a deque with `maxlen = m`: when the
deque is full the oldest (leftmost) element is discarded; a deque with
`maxlen = 0` stays empty. -/
def dequeAppend {α : Type} (m : Nat) (d : List α) (v : α) : List α :=
  if d.length < m then d ++ [v]
  else if m = 0 then d else d.tail ++ [v]

/-- Python `collections.deque.extend`: repeated `append`. -/
def dequeExtend {α : Type} (m : Nat) (d : List α) (xs : List α) : List α :=
  xs.foldl (dequeAppend m) d

-- -------- Python subscription / iteration / dict access on JSON values --------

/-- Python `v[i]` for an integer index `i ≥ 0` on a JSON-decoded value:
lists index positionally, strings yield one-character strings, everything
else raises (`none`; dicts raise KeyError for an integer key, scalars raise
TypeError — all exceptions are handled alike by the callers). -/
def getItem : JVal → Nat → Option JVal
  | JVal.jarr xs, i => xs.get? i
  | JVal.jstr t, i => (t.data.get? i).map (fun c => JVal.jstr (String.mk [c]))
  | _, _ => none

/-- Python `for x in v` on a JSON-decoded value: lists yield their elements,
strings their characters, dicts their keys; scalars raise TypeError
(`none`). -/
def iterItems : JVal → Option (List JVal)
  | JVal.jarr xs => some xs
  | JVal.jstr t => some (t.data.map (fun c => JVal.jstr (String.mk [c])))
  | JVal.jobj fs => some (fs.map (fun kv => JVal.jstr kv.1))
  | _ => none

/-- Python `v.get(k, dflt)`: only dicts have `.get`; any other
JSON-decoded value raises AttributeError (`none`). -/
def dictGet (v : JVal) (k : String) (dflt : JVal) : Option JVal :=
  match v with
  | JVal.jobj fs => some ((List.lookup k fs).getD dflt)
  | _ => none

/-- Python `isinstance(data, list)` on a JSON-decoded value. -/
def isListShape : JVal → Bool
  | JVal.jarr _ => true
  | _ => false

/-- Python `isinstance(data, dict) and "s" in data` on a JSON-decoded
value. -/
def isDictWithS : JVal → Bool
  | JVal.jobj fs => (List.lookup "s" fs).isSome
  | _ => false

-- -------- main.py on_message (lines 47-74) --------

/-- Console log events emitted by the handlers. -/
inductive LogEvent : Type
  | parseError : LogEvent
  | unknownFormat : LogEvent

/-- The inner loop body of `on_message`: `s[0]`, `s[1]`, `s[2]` for one
sample, failing if `s` cannot be indexed that far. -/
def collectSample (s : JVal) : Option (JVal × JVal × JVal) :=
  match getItem s 0, getItem s 1, getItem s 2 with
  | some a, some b, some c => some (a, b, c)
  | _, _, _ => none

/-- `for s in samples: ...` over the value of an `"s"` key: iterate the
container and extract the three components of every sample. -/
def collectSamples (samples : JVal) : Option (List (JVal × JVal × JVal)) :=
  (iterItems samples).bind (fun items => items.mapM collectSample)

/-- One iteration of `for batch in data`: `samples = batch.get("s", [])`
followed by the sample loop. -/
def collectBatch (batch : JVal) : Option (List (JVal × JVal × JVal)) :=
  (dictGet batch "s" (JVal.jarr [])).bind collectSamples

/-- The whole parsing phase of main.py's `on_message` (lines 52-66): the
list format iterates batches, the dict format takes the `"s"` list
directly, any other shape contributes nothing; `none` means an exception
was raised somewhere in the loop. -/
def collectData (data : JVal) : Option (List (JVal × JVal × JVal)) :=
  match data with
  | JVal.jarr batches => (batches.mapM collectBatch).map List.flatten
  | JVal.jobj fs =>
      if (List.lookup "s" fs).isSome then
        collectSamples ((List.lookup "s" fs).getD (JVal.jarr []))
      else some []
  | _ => some []

/-- The three global deques of main.py (lines 20-22). -/
structure MainBuffers : Type where
  data_x : List JVal
  data_y : List JVal
  data_z : List JVal

/-- The initial (empty) buffers of main.py. -/
def buffers0 : MainBuffers := ⟨[], [], []⟩

/-- main.py `on_message` (lines 47-74): decode the payload (`none` models
a `json.loads` failure), build the local lists `new_x`, `new_y`, `new_z`,
and only on full success extend the three deques; any exception is caught
and logged, leaving the buffers untouched. -/
def main_on_message (payload : Option JVal) (st : MainBuffers) :
    MainBuffers × List LogEvent :=
  match payload with
  | none => (st, [LogEvent.parseError])
  | some data =>
    match collectData data with
    | none => (st, [LogEvent.parseError])
    | some ts =>
        ({ data_x := dequeExtend MAX_POINTS st.data_x (ts.map (fun t => t.1)),
           data_y := dequeExtend MAX_POINTS st.data_y (ts.map (fun t => t.2.1)),
           data_z := dequeExtend MAX_POINTS st.data_z (ts.map (fun t => t.2.2)) }, [])

-- -------- test.py on_message (lines 25-46) --------

/-- The three global deques of test.py (lines 16-18). -/
structure TestBuffers : Type where
  x_buf : List JVal
  y_buf : List JVal
  z_buf : List JVal

/-- The initial (empty) buffers of test.py. -/
def testBuffers0 : TestBuffers := ⟨[], [], []⟩

/-- One sample iteration of test.py's `on_message` (lines 32-35 / 39-42):
`x_buf.append(s[0]); y_buf.append(s[1]); z_buf.append(s[2])` with the
appends taking effect one by one, so an indexing error in `s[1]` or `s[2]`
leaves the earlier appends in place.  The boolean is `false` when an
exception was raised. -/
def testSampleStep (st : TestBuffers) (s : JVal) : TestBuffers × Bool :=
  match getItem s 0 with
  | none => (st, false)
  | some a =>
    let st1 : TestBuffers := { st with x_buf := dequeAppend MAX_POINTS st.x_buf a }
    match getItem s 1 with
    | none => (st1, false)
    | some b =>
      let st2 : TestBuffers := { st1 with y_buf := dequeAppend MAX_POINTS st1.y_buf b }
      match getItem s 2 with
      | none => (st2, false)
      | some c => ({ st2 with z_buf := dequeAppend MAX_POINTS st2.z_buf c }, true)

/-- `for s in samples` in test.py, stopping at the first raising sample. -/
def testSamplesLoop (st : TestBuffers) : List JVal → TestBuffers × Bool
  | [] => (st, true)
  | s :: rest =>
    match testSampleStep st s with
    | (st1, true) => testSamplesLoop st1 rest
    | (st1, false) => (st1, false)

/-- One iteration of `for batch in data` in test.py. -/
def testBatchStep (st : TestBuffers) (batch : JVal) : TestBuffers × Bool :=
  match dictGet batch "s" (JVal.jarr []) with
  | none => (st, false)
  | some samples =>
    match iterItems samples with
    | none => (st, false)
    | some items => testSamplesLoop st items

/-- `for batch in data` in test.py, stopping at the first raising batch. -/
def testBatchesLoop (st : TestBuffers) : List JVal → TestBuffers × Bool
  | [] => (st, true)
  | b :: rest =>
    match testBatchStep st b with
    | (st1, true) => testBatchesLoop st1 rest
    | (st1, false) => (st1, false)

/-- Wrapping up a loop outcome in test.py: a raised flag lands in the
`except` clause, which logs a parse error and keeps the state reached so
far. -/
def finishLoop (r : TestBuffers × Bool) : TestBuffers × List LogEvent :=
  match r with
  | (st1, true) => (st1, [])
  | (st1, false) => (st1, [LogEvent.parseError])

/-- test.py `on_message` (lines 25-46): appends go straight to the deques
while parsing; unknown shapes are reported on the console; exceptions are
caught and logged, keeping whatever appends already happened. -/
def test_on_message (payload : Option JVal) (st : TestBuffers) :
    TestBuffers × List LogEvent :=
  match payload with
  | none => (st, [LogEvent.parseError])
  | some data =>
    match data with
    | JVal.jarr batches => finishLoop (testBatchesLoop st batches)
    | JVal.jobj fs =>
      if (List.lookup "s" fs).isSome then
        match iterItems ((List.lookup "s" fs).getD (JVal.jarr [])) with
        | none => (st, [LogEvent.parseError])
        | some items => finishLoop (testSamplesLoop st items)
      else (st, [LogEvent.unknownFormat])
    | _ => (st, [LogEvent.unknownFormat])

-- -------- main.py render loop panel gating (lines 103-204) --------

/-- Which panels a render tick produces. -/
structure RenderPanels : Type where
  time_series : Bool
  spectral : Bool
  spectrogram : Bool

/-- The panel gating of one iteration of main.py's UI loop: nothing is
drawn without data (line 111), the FFT and harmonics panels need at least
64 samples (line 135), and the spectrogram additionally needs at least 256
samples in the z buffer (line 181, nested inside the 64-sample guard). -/
def render_tick (x_buf y_buf z_buf : List JVal) : RenderPanels :=
  if 0 < x_buf.length then
    { time_series := true,
      spectral := decide (64 ≤ x_buf.length),
      spectrogram := decide (64 ≤ x_buf.length) && decide (256 ≤ z_buf.length) }
  else
    { time_series := false, spectral := false, spectrogram := false }

-- -------- Deque lemmas --------

theorem dequeAppend_of_lt {α : Type} (m : Nat) (d : List α) (v : α)
    (h : d.length < m) : dequeAppend m d v = d ++ [v] := by
  unfold dequeAppend
  rw [if_pos h]

theorem dequeAppend_length {α : Type} (m : Nat) (d : List α) (v : α) :
    (dequeAppend m d v).length = max d.length (min m (d.length + 1)) := by
  unfold dequeAppend
  by_cases h : d.length < m
  · rw [if_pos h]
    simp
    omega
  · rw [if_neg h]
    by_cases hm : m = 0
    · rw [if_pos hm]
      omega
    · rw [if_neg hm]
      have hd : d ≠ [] := by
        intro e
        subst e
        simp at h
        omega
      simp [List.length_tail]
      omega

theorem dequeExtend_length {α : Type} (m : Nat) (d : List α) (xs : List α) :
    (dequeExtend m d xs).length = max d.length (min m (d.length + xs.length)) := by
  induction xs generalizing d with
  | nil => simp [dequeExtend]
  | cons x xs ih =>
    simp only [dequeExtend, List.foldl_cons]
    have := ih (dequeAppend m d x)
    simp only [dequeExtend] at this
    rw [this, dequeAppend_length]
    simp only [List.length_cons]
    omega

theorem dequeExtend_of_le {α : Type} (m : Nat) (d xs : List α)
    (h : d.length + xs.length ≤ m) : dequeExtend m d xs = d ++ xs := by
  induction xs generalizing d with
  | nil => simp [dequeExtend]
  | cons x xs ih =>
    simp only [dequeExtend, List.foldl_cons]
    have h1 : d.length < m := by
      simp only [List.length_cons] at h
      omega
    rw [dequeAppend_of_lt m d x h1]
    have h2 : (d ++ [x]).length + xs.length ≤ m := by
      simp only [List.length_append, List.length_cons] at h ⊢
      simp
      omega
    have := ih (d ++ [x]) h2
    simp only [dequeExtend] at this
    rw [this, List.append_assoc]
    rfl

-- -------- Handler unfolding lemmas --------

theorem main_on_message_collect (d : JVal) (ts : List (JVal × JVal × JVal))
    (st : MainBuffers) (h : collectData d = some ts) :
    main_on_message (some d) st =
      ({ data_x := dequeExtend MAX_POINTS st.data_x (ts.map (fun t => t.1)),
         data_y := dequeExtend MAX_POINTS st.data_y (ts.map (fun t => t.2.1)),
         data_z := dequeExtend MAX_POINTS st.data_z (ts.map (fun t => t.2.2)) }, []) := by
  simp [main_on_message, h]

theorem main_on_message_raise (d : JVal) (st : MainBuffers)
    (h : collectData d = none) :
    main_on_message (some d) st = (st, [LogEvent.parseError]) := by
  simp [main_on_message, h]

-- -------- Concrete payloads used in witnesses and counterexamples --------

/-- The payload of the spec example: `{"s": [[1,2,3],[4,5,6]]}`. -/
def msgPair : JVal :=
  JVal.jobj [("s", JVal.jarr [JVal.jarr [JVal.jnum 1, JVal.jnum 2, JVal.jnum 3],
                              JVal.jarr [JVal.jnum 4, JVal.jnum 5, JVal.jnum 6]])]

/-- The sample triples carried by `msgPair`. -/
def pairTriples : List (JVal × JVal × JVal) :=
  [(JVal.jnum 1, JVal.jnum 2, JVal.jnum 3), (JVal.jnum 4, JVal.jnum 5, JVal.jnum 6)]

/-- A payload with a too-short sample: `{"s": [[1,2]]}`. -/
def msgShort : JVal :=
  JVal.jobj [("s", JVal.jarr [JVal.jarr [JVal.jnum 1, JVal.jnum 2]])]

/-- A payload whose sample has three non-numeric (string) components:
`{"s": [["a","b","c"]]}`. -/
def msgNonNumeric : JVal :=
  JVal.jobj [("s", JVal.jarr [JVal.jarr [JVal.jstr "a", JVal.jstr "b", JVal.jstr "c"]])]

/-- A list payload whose element is not a dict: `[5]`; `batch.get` raises
AttributeError on it. -/
def msgBadBatch : JVal := JVal.jarr [JVal.jnum 5]

/-- True exactly when processing the payload raises an exception inside
main.py's `try` block: the JSON decode failed, or the batch/sample loops
raised while building the local lists. -/
def mainRaises : Option JVal → Bool
  | none => true
  | some d => (collectData d).isNone

-- -------- C6 --------

/-- C6: for an axis buffer at its capacity `MAX_POINTS`, appending one
sample evicts exactly the oldest element: the result is the old contents
without their first element, with the new sample at the end, and the
length is unchanged. -/
theorem c6_fifo_eviction (d : List JVal) (v : JVal) (h : d.length = MAX_POINTS) :
    dequeAppend MAX_POINTS d v = d.tail ++ [v] ∧
    (dequeAppend MAX_POINTS d v).length = d.length := by
  constructor
  · unfold dequeAppend
    rw [if_neg (by omega), if_neg (by decide)]
  · rw [dequeAppend_length]
    have : MAX_POINTS = 800 := rfl
    omega

/-- Witness for C6 at a concrete full buffer. -/
theorem c6_fifo_eviction_witness :
    (List.replicate MAX_POINTS (JVal.jnum 0)).length = MAX_POINTS ∧
    (dequeAppend MAX_POINTS (List.replicate MAX_POINTS (JVal.jnum 0)) (JVal.jnum 1) =
        (List.replicate MAX_POINTS (JVal.jnum 0)).tail ++ [JVal.jnum 1] ∧
      (dequeAppend MAX_POINTS (List.replicate MAX_POINTS (JVal.jnum 0)) (JVal.jnum 1)).length =
        (List.replicate MAX_POINTS (JVal.jnum 0)).length) :=
  ⟨by simp, c6_fifo_eviction _ _ (by simp)⟩

-- -------- C4 --------

/-- C4: for a valid batch message carrying `ts.length` samples, each axis
buffer grows to `min MAX_POINTS (previous_length + ts.length)`, and the
three buffers are again of equal length. -/
theorem c4_batch_length (d : JVal) (ts : List (JVal × JVal × JVal))
    (st : MainBuffers) (hd : collectData d = some ts)
    (hx : st.data_x.length ≤ MAX_POINTS) (hy : st.data_y.length ≤ MAX_POINTS)
    (hz : st.data_z.length ≤ MAX_POINTS)
    (hxy : st.data_x.length = st.data_y.length)
    (hyz : st.data_y.length = st.data_z.length) :
    (main_on_message (some d) st).1.data_x.length
        = min MAX_POINTS (st.data_x.length + ts.length) ∧
    (main_on_message (some d) st).1.data_y.length
        = min MAX_POINTS (st.data_y.length + ts.length) ∧
    (main_on_message (some d) st).1.data_z.length
        = min MAX_POINTS (st.data_z.length + ts.length) ∧
    (main_on_message (some d) st).1.data_x.length
        = (main_on_message (some d) st).1.data_y.length ∧
    (main_on_message (some d) st).1.data_y.length
        = (main_on_message (some d) st).1.data_z.length := by
  rw [main_on_message_collect d ts st hd]
  simp only [dequeExtend_length, List.length_map]
  omega

/-- Witness for C4: the two-sample message on empty buffers. -/
theorem c4_batch_length_witness :
    collectData msgPair = some pairTriples ∧
    ((main_on_message (some msgPair) buffers0).1.data_x.length
        = min MAX_POINTS (buffers0.data_x.length + pairTriples.length) ∧
     (main_on_message (some msgPair) buffers0).1.data_y.length
        = min MAX_POINTS (buffers0.data_y.length + pairTriples.length) ∧
     (main_on_message (some msgPair) buffers0).1.data_z.length
        = min MAX_POINTS (buffers0.data_z.length + pairTriples.length) ∧
     (main_on_message (some msgPair) buffers0).1.data_x.length
        = (main_on_message (some msgPair) buffers0).1.data_y.length ∧
     (main_on_message (some msgPair) buffers0).1.data_y.length
        = (main_on_message (some msgPair) buffers0).1.data_z.length) :=
  ⟨rfl, c4_batch_length msgPair pairTriples buffers0 rfl (by decide) (by decide)
    (by decide) rfl rfl⟩

-- -------- C2 --------

/-- C2 (amended): main.py's handler extends the three buffers by the same
count (zero when the message is dropped), so equal lengths before a
message imply equal lengths after it. -/
theorem c2_lockstep_main (p : Option JVal) (st : MainBuffers)
    (hxy : st.data_x.length = st.data_y.length)
    (hyz : st.data_y.length = st.data_z.length) :
    (main_on_message p st).1.data_x.length = (main_on_message p st).1.data_y.length ∧
    (main_on_message p st).1.data_y.length = (main_on_message p st).1.data_z.length := by
  rcases p with _ | d
  · exact ⟨hxy, hyz⟩
  · cases h : collectData d with
    | none => rw [main_on_message_raise d st h]; exact ⟨hxy, hyz⟩
    | some ts =>
        rw [main_on_message_collect d ts st h]
        simp only [dequeExtend_length, List.length_map]
        omega

/-- Witness for the amended C2 on a dropped (undecodable) payload. -/
theorem c2_lockstep_main_witness :
    buffers0.data_x.length = buffers0.data_y.length ∧
    buffers0.data_y.length = buffers0.data_z.length ∧
    ((main_on_message none buffers0).1.data_x.length
        = (main_on_message none buffers0).1.data_y.length ∧
     (main_on_message none buffers0).1.data_y.length
        = (main_on_message none buffers0).1.data_z.length) :=
  ⟨rfl, rfl, c2_lockstep_main none buffers0 rfl rfl⟩

/-- C2 counterexample: test.py's handler appends per component, so the
too-short sample `{"s": [[1,2]]}` leaves the X buffer one element longer
than the Z buffer although all three were equal (empty) before. -/
theorem c2_counterexample :
    testBuffers0.x_buf.length = testBuffers0.z_buf.length ∧
    (test_on_message (some msgShort) testBuffers0).1.x_buf.length = 1 ∧
    (test_on_message (some msgShort) testBuffers0).1.z_buf.length = 0 :=
  ⟨rfl, rfl, rfl⟩

-- -------- C1 --------

/-- C1 (amended): whenever processing a payload raises inside main.py's
`try` block — invalid JSON, a non-dict batch element, a non-iterable
sample list, a non-indexable or too-short sample — the handler catches the
error, logs a parse error, and returns with all three buffers exactly
unchanged. -/
theorem c1_malformed_unchanged (p : Option JVal) (st : MainBuffers)
    (h : mainRaises p = true) :
    main_on_message p st = (st, [LogEvent.parseError]) := by
  rcases p with _ | d
  · rfl
  · have hc : collectData d = none := by
      simpa [mainRaises, Option.isNone_iff_eq_none] using h
    exact main_on_message_raise d st hc

/-- Witness for the amended C1: a list payload whose element has no
`.get`. -/
theorem c1_malformed_unchanged_witness :
    mainRaises (some msgBadBatch) = true ∧
    main_on_message (some msgBadBatch) buffers0 = (buffers0, [LogEvent.parseError]) :=
  ⟨rfl, c1_malformed_unchanged (some msgBadBatch) buffers0 rfl⟩

/-- C1 counterexample: the payload `{"s": [["a","b","c"]]}` has non-numeric
sample entries, yet main.py's handler raises nothing and retains the
strings — the buffers do not stay unchanged as the claim requires. -/
theorem c1_counterexample :
    (main_on_message (some msgNonNumeric) buffers0).1.data_x = [JVal.jstr "a"] ∧
    (main_on_message (some msgNonNumeric) buffers0).1.data_x.length
      ≠ buffers0.data_x.length :=
  ⟨rfl, by decide⟩

-- -------- C9 --------

theorem testSampleStep_triple (st : TestBuffers) (a b c : JVal) :
    testSampleStep st (JVal.jarr [a, b, c]) =
      ({ x_buf := dequeAppend MAX_POINTS st.x_buf a,
         y_buf := dequeAppend MAX_POINTS st.y_buf b,
         z_buf := dequeAppend MAX_POINTS st.z_buf c }, true) := rfl

/-- C9: ingesting `{"s": [[1,2,3],[4,5,6]]}` into buffers with at least two
free slots appends `[1,4]` to X, `[2,5]` to Y and `[3,6]` to Z, in
emission order, in both handlers. -/
theorem c9_routing_example (st : MainBuffers) (st' : TestBuffers)
    (hx : st.data_x.length + 2 ≤ MAX_POINTS) (hy : st.data_y.length + 2 ≤ MAX_POINTS)
    (hz : st.data_z.length + 2 ≤ MAX_POINTS)
    (hx' : st'.x_buf.length + 2 ≤ MAX_POINTS) (hy' : st'.y_buf.length + 2 ≤ MAX_POINTS)
    (hz' : st'.z_buf.length + 2 ≤ MAX_POINTS) :
    ((main_on_message (some msgPair) st).1.data_x = st.data_x ++ [JVal.jnum 1, JVal.jnum 4] ∧
     (main_on_message (some msgPair) st).1.data_y = st.data_y ++ [JVal.jnum 2, JVal.jnum 5] ∧
     (main_on_message (some msgPair) st).1.data_z = st.data_z ++ [JVal.jnum 3, JVal.jnum 6]) ∧
    ((test_on_message (some msgPair) st').1.x_buf = st'.x_buf ++ [JVal.jnum 1, JVal.jnum 4] ∧
     (test_on_message (some msgPair) st').1.y_buf = st'.y_buf ++ [JVal.jnum 2, JVal.jnum 5] ∧
     (test_on_message (some msgPair) st').1.z_buf = st'.z_buf ++ [JVal.jnum 3, JVal.jnum 6]) := by
  constructor
  · rw [main_on_message_collect msgPair pairTriples st rfl]
    refine ⟨?_, ?_, ?_⟩ <;>
      · show dequeExtend MAX_POINTS _ [_, _] = _
        rw [dequeExtend_of_le _ _ _ (by simp; omega)]
  · have h0 : test_on_message (some msgPair) st' =
        finishLoop (testSamplesLoop st'
            [JVal.jarr [JVal.jnum 1, JVal.jnum 2, JVal.jnum 3],
             JVal.jarr [JVal.jnum 4, JVal.jnum 5, JVal.jnum 6]]) := rfl
    rw [h0]
    simp only [testSamplesLoop, testSampleStep_triple, finishLoop]
    have e1 : dequeAppend MAX_POINTS st'.x_buf (JVal.jnum 1) = st'.x_buf ++ [JVal.jnum 1] :=
      dequeAppend_of_lt _ _ _ (by omega)
    have e2 : dequeAppend MAX_POINTS st'.y_buf (JVal.jnum 2) = st'.y_buf ++ [JVal.jnum 2] :=
      dequeAppend_of_lt _ _ _ (by omega)
    have e3 : dequeAppend MAX_POINTS st'.z_buf (JVal.jnum 3) = st'.z_buf ++ [JVal.jnum 3] :=
      dequeAppend_of_lt _ _ _ (by omega)
    rw [e1, e2, e3]
    rw [dequeAppend_of_lt _ _ _ (by simp; omega), dequeAppend_of_lt _ _ _ (by simp; omega),
        dequeAppend_of_lt _ _ _ (by simp; omega)]
    simp

/-- Witness for C9 on empty buffers. -/
theorem c9_routing_example_witness :
    buffers0.data_x.length + 2 ≤ MAX_POINTS ∧
    (((main_on_message (some msgPair) buffers0).1.data_x
        = buffers0.data_x ++ [JVal.jnum 1, JVal.jnum 4] ∧
      (main_on_message (some msgPair) buffers0).1.data_y
        = buffers0.data_y ++ [JVal.jnum 2, JVal.jnum 5] ∧
      (main_on_message (some msgPair) buffers0).1.data_z
        = buffers0.data_z ++ [JVal.jnum 3, JVal.jnum 6]) ∧
     ((test_on_message (some msgPair) testBuffers0).1.x_buf
        = testBuffers0.x_buf ++ [JVal.jnum 1, JVal.jnum 4] ∧
      (test_on_message (some msgPair) testBuffers0).1.y_buf
        = testBuffers0.y_buf ++ [JVal.jnum 2, JVal.jnum 5] ∧
      (test_on_message (some msgPair) testBuffers0).1.z_buf
        = testBuffers0.z_buf ++ [JVal.jnum 3, JVal.jnum 6])) :=
  ⟨by decide, c9_routing_example buffers0 testBuffers0 (by decide) (by decide)
    (by decide) (by decide) (by decide) (by decide)⟩

-- -------- C10 --------

/-- C10: a decoded payload that is neither a list nor a dict containing
`"s"` leaves the buffers of both handlers unchanged and raises nothing; test.py
reports the unknown format on the console while main.py stays silent. -/
theorem c10_unknown_shape (d : JVal) (st : MainBuffers) (st' : TestBuffers)
    (h1 : isListShape d = false) (h2 : isDictWithS d = false) :
    main_on_message (some d) st = (st, []) ∧
    test_on_message (some d) st' = (st', [LogEvent.unknownFormat]) := by
  cases d with
  | jnull => exact ⟨rfl, rfl⟩
  | jbool b => exact ⟨rfl, rfl⟩
  | jnum q => exact ⟨rfl, rfl⟩
  | jstr t => exact ⟨rfl, rfl⟩
  | jarr xs => simp [isListShape] at h1
  | jobj fs =>
      have hl : (List.lookup "s" fs).isSome = false := by
        simpa [isDictWithS] using h2
      constructor
      · have hc : collectData (JVal.jobj fs) = some [] := by
          simp [collectData, hl]
        rw [main_on_message_collect _ [] st hc]
        simp [dequeExtend]
      · simp [test_on_message, hl]

/-- Witness for C10 on the scalar payload `7`. -/
theorem c10_unknown_shape_witness :
    isListShape (JVal.jnum 7) = false ∧ isDictWithS (JVal.jnum 7) = false ∧
    (main_on_message (some (JVal.jnum 7)) buffers0 = (buffers0, []) ∧
     test_on_message (some (JVal.jnum 7)) testBuffers0
        = (testBuffers0, [LogEvent.unknownFormat])) :=
  ⟨rfl, rfl, c10_unknown_shape (JVal.jnum 7) buffers0 testBuffers0 rfl rfl⟩

-- -------- C7 --------

/-- C7: on a render tick over a consistent snapshot (equal X and Z
lengths), the FFT/harmonics panels are produced exactly when the snapshot
holds at least 64 samples and the spectrogram exactly when it holds at
least 256. -/
theorem c7_panel_thresholds (x_buf y_buf z_buf : List JVal)
    (hxz : x_buf.length = z_buf.length) :
    ((render_tick x_buf y_buf z_buf).spectral = true ↔ 64 ≤ x_buf.length) ∧
    ((render_tick x_buf y_buf z_buf).spectrogram = true ↔ 256 ≤ x_buf.length) := by
  unfold render_tick
  by_cases h0 : 0 < x_buf.length
  · rw [if_pos h0]
    simp only [Bool.and_eq_true, decide_eq_true_eq]
    refine ⟨by trivial, by omega⟩
  · rw [if_neg h0]
    simp only [Bool.false_eq_true, false_iff]
    refine ⟨by omega, by omega⟩

/-- Witness for C7 at a 256-sample snapshot. -/
theorem c7_panel_thresholds_witness :
    (List.replicate 256 (JVal.jnum 0)).length = (List.replicate 256 (JVal.jnum 0)).length ∧
    (((render_tick (List.replicate 256 (JVal.jnum 0)) (List.replicate 256 (JVal.jnum 0))
          (List.replicate 256 (JVal.jnum 0))).spectral = true
        ↔ 64 ≤ (List.replicate 256 (JVal.jnum 0)).length) ∧
     ((render_tick (List.replicate 256 (JVal.jnum 0)) (List.replicate 256 (JVal.jnum 0))
          (List.replicate 256 (JVal.jnum 0))).spectrogram = true
        ↔ 256 ≤ (List.replicate 256 (JVal.jnum 0)).length)) :=
  ⟨rfl, c7_panel_thresholds _ _ _ rfl⟩

-- -------- C5 --------

/-- All three main.py buffers are within the configured capacity. -/
def mainWithinCapacity (st : MainBuffers) : Prop :=
  st.data_x.length ≤ MAX_POINTS ∧ st.data_y.length ≤ MAX_POINTS ∧
    st.data_z.length ≤ MAX_POINTS

/-- All three test.py buffers are within the configured capacity. -/
def testWithinCapacity (st : TestBuffers) : Prop :=
  st.x_buf.length ≤ MAX_POINTS ∧ st.y_buf.length ≤ MAX_POINTS ∧
    st.z_buf.length ≤ MAX_POINTS

/-- The main.py buffers after a sequence of `on_message` deliveries,
starting from the empty initial state. -/
def mainRun (msgs : List (Option JVal)) : MainBuffers :=
  msgs.foldl (fun st p => (main_on_message p st).1) buffers0

/-- The test.py buffers after a sequence of `on_message` deliveries,
starting from the empty initial state. -/
def testRun (msgs : List (Option JVal)) : TestBuffers :=
  msgs.foldl (fun st p => (test_on_message p st).1) testBuffers0

theorem main_on_message_capacity (p : Option JVal) (st : MainBuffers)
    (h : mainWithinCapacity st) : mainWithinCapacity (main_on_message p st).1 := by
  obtain ⟨h1, h2, h3⟩ := h
  rcases p with _ | d
  · exact ⟨h1, h2, h3⟩
  · cases hc : collectData d with
    | none => rw [main_on_message_raise d st hc]; exact ⟨h1, h2, h3⟩
    | some ts =>
        rw [main_on_message_collect d ts st hc]
        refine ⟨?_, ?_, ?_⟩ <;>
          · simp only [dequeExtend_length, List.length_map]
            omega

theorem testSampleStep_capacity (st : TestBuffers) (s : JVal)
    (h : testWithinCapacity st) : testWithinCapacity (testSampleStep st s).1 := by
  obtain ⟨h1, h2, h3⟩ := h
  unfold testSampleStep
  cases getItem s 0 with
  | none => exact ⟨h1, h2, h3⟩
  | some a =>
    cases getItem s 1 with
    | none =>
        refine ⟨?_, h2, h3⟩
        simp only [dequeAppend_length]
        omega
    | some b =>
      cases getItem s 2 with
      | none =>
          refine ⟨?_, ?_, h3⟩ <;>
            · simp only [dequeAppend_length]
              omega
      | some c =>
          refine ⟨?_, ?_, ?_⟩ <;>
            · simp only [dequeAppend_length]
              omega

theorem testSamplesLoop_capacity (items : List JVal) :
    ∀ st : TestBuffers, testWithinCapacity st →
      testWithinCapacity (testSamplesLoop st items).1 := by
  induction items with
  | nil => intro st h; exact h
  | cons s rest ih =>
      intro st h
      unfold testSamplesLoop
      have hs := testSampleStep_capacity st s h
      cases he : testSampleStep st s with
      | mk st1 ok =>
          rw [he] at hs
          cases ok with
          | true => exact ih st1 hs
          | false => exact hs

theorem finishLoop_fst (r : TestBuffers × Bool) : (finishLoop r).1 = r.1 := by
  rcases r with ⟨st1, b⟩
  cases b <;> rfl

theorem testBatchStep_capacity (st : TestBuffers) (b : JVal)
    (h : testWithinCapacity st) : testWithinCapacity (testBatchStep st b).1 := by
  unfold testBatchStep
  split
  · exact h
  · split
    · exact h
    · exact testSamplesLoop_capacity _ st h

theorem testBatchesLoop_capacity (bs : List JVal) :
    ∀ st : TestBuffers, testWithinCapacity st →
      testWithinCapacity (testBatchesLoop st bs).1 := by
  induction bs with
  | nil => intro st h; exact h
  | cons b rest ih =>
      intro st h
      unfold testBatchesLoop
      have hs := testBatchStep_capacity st b h
      cases he : testBatchStep st b with
      | mk st1 ok =>
          rw [he] at hs
          cases ok with
          | true => exact ih st1 hs
          | false => exact hs

theorem test_on_message_capacity (p : Option JVal) (st : TestBuffers)
    (h : testWithinCapacity st) : testWithinCapacity (test_on_message p st).1 := by
  rcases p with _ | d
  · exact h
  · cases d with
    | jarr batches =>
        have h1 : test_on_message (some (JVal.jarr batches)) st
            = finishLoop (testBatchesLoop st batches) := rfl
        rw [h1, finishLoop_fst]
        exact testBatchesLoop_capacity batches st h
    | jobj fs =>
        by_cases hl : (List.lookup "s" fs).isSome
        · have h1 : test_on_message (some (JVal.jobj fs)) st
              = match iterItems ((List.lookup "s" fs).getD (JVal.jarr [])) with
                | none => (st, [LogEvent.parseError])
                | some items => finishLoop (testSamplesLoop st items) := by
            simp [test_on_message, hl]
          rw [h1]
          split
          · exact h
          · rw [finishLoop_fst]
            exact testSamplesLoop_capacity _ st h
        · have h1 : test_on_message (some (JVal.jobj fs)) st
              = (st, [LogEvent.unknownFormat]) := by
            simp [test_on_message, hl]
          rw [h1]
          exact h
    | jnull => exact h
    | jbool b => exact h
    | jnum q => exact h
    | jstr t => exact h

/-- C5: whatever sequence of payloads is delivered to the handlers, no
axis buffer of either file ever exceeds the configured capacity
`MAX_POINTS`. -/
theorem c5_capacity_invariant (msgs : List (Option JVal)) :
    mainWithinCapacity (mainRun msgs) ∧ testWithinCapacity (testRun msgs) := by
  constructor
  · have aux : ∀ (l : List (Option JVal)) (st : MainBuffers), mainWithinCapacity st →
        mainWithinCapacity (l.foldl (fun st p => (main_on_message p st).1) st) := by
      intro l
      induction l with
      | nil => intro st h; exact h
      | cons p rest ih =>
          intro st h
          exact ih _ (main_on_message_capacity p st h)
    exact aux msgs buffers0 ⟨by decide, by decide, by decide⟩
  · have aux : ∀ (l : List (Option JVal)) (st : TestBuffers), testWithinCapacity st →
        testWithinCapacity (l.foldl (fun st p => (test_on_message p st).1) st) := by
      intro l
      induction l with
      | nil => intro st h; exact h
      | cons p rest ih =>
          intro st h
          exact ih _ (test_on_message_capacity p st h)
    exact aux msgs testBuffers0 ⟨by decide, by decide, by decide⟩

-- -------- Spectral peak pipeline (main.py lines 159-170) --------

/-- `np.max` of a (nonempty) array; the callers guard against emptiness. -/
def npMax : List ℚ → ℚ
  | [] => 0
  | h :: t => t.foldl max h

/-- Boolean-mask restriction `mag[freqs <= 60], freqs[freqs <= 60]` of two
equal-length arrays: positions are kept where the frequency is at most
60 Hz. -/
def maskFilter (mag freqs : List ℚ) : List ℚ × List ℚ :=
  (((mag.zip freqs).filter (fun p => decide (p.2 ≤ 60))).map Prod.fst,
   ((mag.zip freqs).filter (fun p => decide (p.2 ≤ 60))).map Prod.snd)

/-- The inner plateau scan of scipy's `_local_maxima_1d`: starting at `j`,
advance while still left of `iMax` and equal to the candidate value `v`.
The structural `fuel` argument only counts the loop steps; every caller
passes `iMax - j`, which the scan exhausts exactly when `j` reaches
`iMax`, so it never cuts the loop short. -/
def plateauScan (x : List ℚ) (iMax : Nat) (v : ℚ) : Nat → Nat → Nat
  | 0, j => j
  | fuel + 1, j =>
      if j < iMax ∧ x.getD j 0 = v then plateauScan x iMax v fuel (j + 1) else j

/-- The main loop of scipy's `_local_maxima_1d`: a strictly rising edge at
`i`, a plateau of equal values, and a strictly falling edge make the
plateau midpoint a local maximum; the first and last samples are never
maxima.  The structural `fuel` argument only counts the loop steps: `i`
grows by at least one per step, so starting with `fuel = iMax` at `i = 1`
the loop always ends by `i` reaching `iMax`, never by exhausted fuel. -/
def localMaximaAux (x : List ℚ) (iMax : Nat) : Nat → Nat → List Nat
  | 0, _ => []
  | fuel + 1, i =>
    if i < iMax then
      if x.getD (i - 1) 0 < x.getD i 0 then
        let a := plateauScan x iMax (x.getD i 0) (iMax - (i + 1)) (i + 1)
        if x.getD a 0 < x.getD i 0 then
          (i + (a - 1)) / 2 :: localMaximaAux x iMax fuel (a + 1)
        else localMaximaAux x iMax fuel (i + 1)
      else localMaximaAux x iMax fuel (i + 1)
    else []

/-- scipy `_local_maxima_1d`: indices of the interior local maxima of `x`,
in increasing order. -/
def localMaxima (x : List ℚ) : List Nat :=
  localMaximaAux x (x.length - 1) (x.length - 1) 1

/-- scipy `signal.find_peaks(x, height=h)`: the local maxima whose height
is at least `h`, together with their heights (the peak_heights property). -/
def find_peaks (x : List ℚ) (h : ℚ) : List Nat × List ℚ :=
  let kept := (localMaxima x).filter (fun p => decide (h ≤ x.getD p 0))
  (kept, kept.map (fun p => x.getD p 0))

/-- The comparison `np.argsort` sorts by: values ascending, ties by
position (the model fixes the tie order, which numpy leaves unspecified). -/
def argRel (xs : List ℚ) (i j : Nat) : Prop :=
  xs.getD i 0 < xs.getD j 0 ∨ (xs.getD i 0 = xs.getD j 0 ∧ i ≤ j)

instance argRel.decidableRel (xs : List ℚ) : DecidableRel (argRel xs) := fun i j => by
  unfold argRel
  infer_instance

instance argRel.isTotal (xs : List ℚ) : IsTotal Nat (argRel xs) := by
  constructor
  intro i j
  rcases lt_trichotomy (xs.getD i 0) (xs.getD j 0) with h | h | h
  · exact Or.inl (Or.inl h)
  · rcases Nat.le_total i j with hij | hij
    · exact Or.inl (Or.inr ⟨h, hij⟩)
    · exact Or.inr (Or.inr ⟨h.symm, hij⟩)
  · exact Or.inr (Or.inl h)

instance argRel.isTrans (xs : List ℚ) : IsTrans Nat (argRel xs) := by
  constructor
  intro a b c hab hbc
  rcases hab with h1 | ⟨h1, h1'⟩ <;> rcases hbc with h2 | ⟨h2, h2'⟩
  · exact Or.inl (h1.trans h2)
  · exact Or.inl (h2 ▸ h1)
  · exact Or.inl (h1 ▸ h2)
  · exact Or.inr ⟨h1.trans h2, le_trans h1' h2'⟩

/-- `np.argsort(xs)`: the indices of `xs` sorted by value ascending. -/
def np_argsort (xs : List ℚ) : List Nat :=
  (List.range xs.length).insertionSort (argRel xs)

/-- Python slice `l[-n:]` for `n > 0`: the last `n` elements (all of them
when the list is shorter). -/
def lastN (n : Nat) (l : List α) : List α := l.drop (l.length - n)

/-- `np.argsort(peak_heights)[-n_peaks:][::-1]`: positions of the `n`
largest heights, by height descending. -/
def topIndices (n : Nat) (xs : List ℚ) : List Nat := (lastN n (np_argsort xs)).reverse

/-- main.py `find_top_harmonics` (lines 159-170), in exact rational
arithmetic: restrict to the 0-60 Hz band, guard the empty band, find the
peaks at least 10% of the band maximum high, and return the frequencies
and magnitudes of the top `n_peaks` by magnitude descending. -/
def find_top_harmonics (n_peaks : Nat) (mag freqs : List ℚ) : List ℚ × List ℚ :=
  let mag_filtered := (maskFilter mag freqs).1
  let freqs_filtered := (maskFilter mag freqs).2
  if mag_filtered.length = 0 then ([], [])
  else
    let pk := find_peaks mag_filtered (npMax mag_filtered * (1 / 10))
    if 0 < pk.1.length then
      let top_peaks := (topIndices n_peaks pk.2).map (fun i => pk.1.getD i 0)
      (top_peaks.map (fun p => freqs_filtered.getD p 0),
       top_peaks.map (fun p => mag_filtered.getD p 0))
    else ([], [])

/-- test.py `find_top_harmonics` (lines 146-160): identical to main.py's
version except that it lacks the empty-band guard, so on an empty
restriction `np.max` of an empty array raises ValueError (modelled as
`none`) instead of returning empty arrays. -/
def test_find_top_harmonics (n_peaks : Nat) (mag freqs : List ℚ) :
    Option (List ℚ × List ℚ) :=
  let mag_filtered := (maskFilter mag freqs).1
  let freqs_filtered := (maskFilter mag freqs).2
  if mag_filtered.length = 0 then none
  else
    let pk := find_peaks mag_filtered (npMax mag_filtered * (1 / 10))
    if 0 < pk.1.length then
      let top_peaks := (topIndices n_peaks pk.2).map (fun i => pk.1.getD i 0)
      some (top_peaks.map (fun p => freqs_filtered.getD p 0),
            top_peaks.map (fun p => mag_filtered.getD p 0))
    else some ([], [])

-- -------- List index helper lemmas --------

theorem getD_map_lt {α β : Type} (f : α → β) (l : List α) (i : Nat) (d : β) (d' : α)
    (hi : i < l.length) : (l.map f).getD i d = f (l.getD i d') := by
  induction l generalizing i with
  | nil => simp at hi
  | cons a t ih =>
      cases i with
      | zero => rfl
      | succ k =>
          simp only [List.map_cons, List.getD_cons_succ]
          exact ih k (by simpa using hi)

theorem getD_mem_lt {α : Type} (l : List α) (i : Nat) (d : α) (hi : i < l.length) :
    l.getD i d ∈ l := by
  induction l generalizing i with
  | nil => simp at hi
  | cons a t ih =>
      cases i with
      | zero => simp
      | succ k =>
          simp only [List.getD_cons_succ]
          exact List.mem_cons_of_mem a (ih k (by simpa using hi))

theorem map_getD_range {α : Type} (l : List α) (d : α) :
    (List.range l.length).map (fun i => l.getD i d) = l := by
  induction l with
  | nil => rfl
  | cons a t ih =>
      have hc : ((fun i => (a :: t).getD i d) ∘ Nat.succ) = (fun i => t.getD i d) := by
        funext i
        simp
      simp only [List.length_cons, List.range_succ_eq_map, List.map_cons, List.map_map, hc,
        List.getD_cons_zero, ih]

-- -------- np_argsort and topIndices lemmas --------

theorem np_argsort_perm (xs : List ℚ) : (np_argsort xs).Perm (List.range xs.length) :=
  List.perm_insertionSort _ _

theorem np_argsort_sorted (xs : List ℚ) : (np_argsort xs).Sorted (argRel xs) :=
  List.sorted_insertionSort _ _

theorem np_argsort_length (xs : List ℚ) : (np_argsort xs).length = xs.length := by
  simpa using (np_argsort_perm xs).length_eq

theorem mem_np_argsort {xs : List ℚ} {i : Nat} (h : i ∈ np_argsort xs) : i < xs.length :=
  List.mem_range.mp ((np_argsort_perm xs).mem_iff.mp h)

theorem topIndices_length (n : Nat) (xs : List ℚ) :
    (topIndices n xs).length = min n xs.length := by
  simp only [topIndices, lastN, List.length_reverse, List.length_drop, np_argsort_length]
  omega

theorem mem_topIndices {n : Nat} {xs : List ℚ} {i : Nat} (h : i ∈ topIndices n xs) :
    i ∈ np_argsort xs := by
  simp only [topIndices, lastN, List.mem_reverse] at h
  exact List.mem_of_mem_drop h

theorem topIndices_sorted (n : Nat) (xs : List ℚ) :
    (topIndices n xs).Pairwise (fun i j => argRel xs j i) := by
  have h1 : (lastN n (np_argsort xs)).Pairwise (argRel xs) :=
    (np_argsort_sorted xs).sublist (List.drop_sublist _ _)
  exact List.pairwise_reverse.mpr h1

theorem topIndices_of_le {n : Nat} (xs : List ℚ) (h : xs.length ≤ n) :
    (topIndices n xs).Perm (List.range xs.length) := by
  have hd : (np_argsort xs).length - n = 0 := by
    rw [np_argsort_length]
    omega
  have he : topIndices n xs = (np_argsort xs).reverse := by
    simp [topIndices, lastN, hd]
  rw [he]
  exact (List.reverse_perm _).trans (np_argsort_perm xs)

theorem argRel_le {xs : List ℚ} {i j : Nat} (h : argRel xs i j) :
    xs.getD i 0 ≤ xs.getD j 0 := by
  rcases h with h | ⟨h, _⟩
  · exact le_of_lt h
  · exact le_of_eq h

-- -------- The amended C3 property --------

/-- The peak indices that `find_peaks` keeps inside `find_top_harmonics`:
the interior local maxima of the band-restricted magnitude curve whose
height is at least 10% of the band maximum. -/
def qualifyingPeaks (mag freqs : List ℚ) : List Nat :=
  (localMaxima (maskFilter mag freqs).1).filter
    (fun p => decide (npMax (maskFilter mag freqs).1 * (1 / 10)
      ≤ (maskFilter mag freqs).1.getD p 0))

/-- The core of the amended C3 property of `find_top_harmonics 5 mag
freqs` (main.py's version): the two returned arrays pair up; the result
count is exactly `min 5 (number of qualifying peaks)`, sorted by magnitude
descending; every returned pair is the (frequency, magnitude) of a
qualifying local maximum of the 0-60 Hz band; the returned magnitudes are
the LARGEST qualifying ones (appending some remainder whose every element
is at most every returned one recovers all qualifying magnitudes, with
multiplicity); when at most five maxima qualify the returned arrays are
exactly all of them; and an empty restricted band yields empty arrays
rather than an error. -/
def c3CoreProp (mag freqs : List ℚ) : Prop :=
  (find_top_harmonics 5 mag freqs).1.length = (find_top_harmonics 5 mag freqs).2.length ∧
  (find_top_harmonics 5 mag freqs).2.length = min 5 (qualifyingPeaks mag freqs).length ∧
  (find_top_harmonics 5 mag freqs).2.Sorted (fun a b => b ≤ a) ∧
  (∀ k, k < (find_top_harmonics 5 mag freqs).2.length →
    ∃ p, p ∈ qualifyingPeaks mag freqs ∧
      (find_top_harmonics 5 mag freqs).2.getD k 0 = (maskFilter mag freqs).1.getD p 0 ∧
      (find_top_harmonics 5 mag freqs).1.getD k 0 = (maskFilter mag freqs).2.getD p 0) ∧
  (∃ rest : List ℚ,
    ((find_top_harmonics 5 mag freqs).2 ++ rest).Perm
        ((qualifyingPeaks mag freqs).map (fun p => (maskFilter mag freqs).1.getD p 0)) ∧
    ∀ a ∈ rest, ∀ b ∈ (find_top_harmonics 5 mag freqs).2, a ≤ b) ∧
  ((qualifyingPeaks mag freqs).length ≤ 5 →
    ((find_top_harmonics 5 mag freqs).2.Perm
        ((qualifyingPeaks mag freqs).map (fun p => (maskFilter mag freqs).1.getD p 0)) ∧
     (find_top_harmonics 5 mag freqs).1.Perm
        ((qualifyingPeaks mag freqs).map (fun p => (maskFilter mag freqs).2.getD p 0)))) ∧
  ((maskFilter mag freqs).1 = [] → find_top_harmonics 5 mag freqs = ([], []))

/-- The amended C3 property: the core property of main.py's
`find_top_harmonics`, together with the behaviour of test.py's guardless
variant — it raises on an empty restricted band and agrees with main.py's
version everywhere else. -/
def c3Prop (mag freqs : List ℚ) : Prop :=
  c3CoreProp mag freqs ∧
  ((maskFilter mag freqs).1.length = 0 → test_find_top_harmonics 5 mag freqs = none) ∧
  (¬(maskFilter mag freqs).1.length = 0 →
    test_find_top_harmonics 5 mag freqs = some (find_top_harmonics 5 mag freqs))

theorem find_top_harmonics_eq (mag freqs : List ℚ) :
    find_top_harmonics 5 mag freqs =
      (if (maskFilter mag freqs).1.length = 0 then ([], [])
       else if 0 < (qualifyingPeaks mag freqs).length then
         (((topIndices 5 ((qualifyingPeaks mag freqs).map
                (fun p => (maskFilter mag freqs).1.getD p 0))).map
              (fun i => (qualifyingPeaks mag freqs).getD i 0)).map
            (fun p => (maskFilter mag freqs).2.getD p 0),
          ((topIndices 5 ((qualifyingPeaks mag freqs).map
                (fun p => (maskFilter mag freqs).1.getD p 0))).map
              (fun i => (qualifyingPeaks mag freqs).getD i 0)).map
            (fun p => (maskFilter mag freqs).1.getD p 0))
       else ([], [])) := rfl

theorem test_find_top_harmonics_eq (mag freqs : List ℚ) :
    test_find_top_harmonics 5 mag freqs =
      (if (maskFilter mag freqs).1.length = 0 then none
       else if 0 < (qualifyingPeaks mag freqs).length then
         some ((((topIndices 5 ((qualifyingPeaks mag freqs).map
                (fun p => (maskFilter mag freqs).1.getD p 0))).map
              (fun i => (qualifyingPeaks mag freqs).getD i 0)).map
            (fun p => (maskFilter mag freqs).2.getD p 0),
          ((topIndices 5 ((qualifyingPeaks mag freqs).map
                (fun p => (maskFilter mag freqs).1.getD p 0))).map
              (fun i => (qualifyingPeaks mag freqs).getD i 0)).map
            (fun p => (maskFilter mag freqs).1.getD p 0)))
       else some ([], [])) := rfl

theorem test_find_top_harmonics_empty (mag freqs : List ℚ)
    (h : (maskFilter mag freqs).1.length = 0) :
    test_find_top_harmonics 5 mag freqs = none := by
  rw [test_find_top_harmonics_eq, if_pos h]

theorem test_find_top_harmonics_agrees (mag freqs : List ℚ)
    (h : ¬(maskFilter mag freqs).1.length = 0) :
    test_find_top_harmonics 5 mag freqs = some (find_top_harmonics 5 mag freqs) := by
  rw [test_find_top_harmonics_eq, find_top_harmonics_eq, if_neg h, if_neg h]
  by_cases hq : 0 < (qualifyingPeaks mag freqs).length
  · rw [if_pos hq, if_pos hq]
  · rw [if_neg hq, if_neg hq]

-- -------- C3 --------

theorem c3_core (mag freqs : List ℚ) (hlen : mag.length = freqs.length) :
    c3CoreProp mag freqs := by
  unfold c3CoreProp
  rw [find_top_harmonics_eq]
  by_cases hmf : (maskFilter mag freqs).1.length = 0
  · rw [if_pos hmf]
    have hmfe : (maskFilter mag freqs).1 = [] := List.length_eq_zero.mp hmf
    have hQ : qualifyingPeaks mag freqs = [] := by
      unfold qualifyingPeaks
      rw [hmfe]
      rfl
    refine ⟨rfl, by simp [hQ], List.sorted_nil, ?_, ?_, ?_, fun _ => rfl⟩
    · intro k hk
      simp at hk
    · refine ⟨[], by simp [hQ], ?_⟩
      intro a ha
      simp at ha
    · intro _
      constructor <;> simp [hQ]
  · rw [if_neg hmf]
    by_cases hq : 0 < (qualifyingPeaks mag freqs).length
    · rw [if_pos hq]
      set Q := qualifyingPeaks mag freqs with hQdef
      set mf1 := (maskFilter mag freqs).1 with hmf1
      set mf2 := (maskFilter mag freqs).2 with hmf2
      set hts := Q.map (fun p => mf1.getD p 0) with hhts
      set L := topIndices 5 hts with hL
      have hhtslen : hts.length = Q.length := by
        rw [hhts]
        exact List.length_map _ _
      have hmemL : ∀ i, i ∈ L → i < Q.length := by
        intro i hi
        have h1 := mem_np_argsort (mem_topIndices (hL ▸ hi))
        rwa [hhtslen] at h1
      have hLd : L = ((np_argsort hts).drop ((np_argsort hts).length - 5)).reverse := hL
      have hr2 : (L.map (fun i => Q.getD i 0)).map (fun p => mf1.getD p 0)
          = L.map (fun i => hts.getD i 0) := by
        rw [List.map_map]
        refine List.map_congr_left ?_
        intro i hi
        have hib := hmemL i hi
        have e1 := getD_map_lt (fun p => mf1.getD p 0) Q i (0 : ℚ) 0 hib
        rw [hhts.symm] at e1
        exact e1.symm
      refine ⟨by simp, ?_, ?_, ?_, ?_, ?_, ?_⟩
      · simp only [List.length_map]
        rw [hL, topIndices_length, hhtslen]
      · unfold List.Sorted
        rw [List.pairwise_map, List.pairwise_map]
        have hs : L.Pairwise (fun i j => argRel hts j i) := hL ▸ topIndices_sorted 5 hts
        refine hs.imp_of_mem ?_
        intro i j hi hj hrel
        have hib := hmemL i hi
        have hjb := hmemL j hj
        have e1 := getD_map_lt (fun p => mf1.getD p 0) Q i (0 : ℚ) 0 hib
        have e2 := getD_map_lt (fun p => mf1.getD p 0) Q j (0 : ℚ) 0 hjb
        have h3 := argRel_le hrel
        rw [hhts.symm] at e1 e2
        rw [e1, e2] at h3
        exact h3
      · intro k hk
        have hk' : k < L.length := by simpa using hk
        have hiL : L.getD k 0 ∈ L := getD_mem_lt L k 0 hk'
        have hib : L.getD k 0 < Q.length := hmemL _ hiL
        refine ⟨Q.getD (L.getD k 0) 0, getD_mem_lt Q _ 0 hib, ?_, ?_⟩
        · have e1 := getD_map_lt (fun p => mf1.getD p 0) (L.map (fun i => Q.getD i 0))
            k (0 : ℚ) 0 (by simpa using hk')
          have e2 := getD_map_lt (fun i => Q.getD i 0) L k (0 : Nat) 0 hk'
          rw [e1, e2]
        · have e1 := getD_map_lt (fun p => mf2.getD p 0) (L.map (fun i => Q.getD i 0))
            k (0 : ℚ) 0 (by simpa using hk')
          have e2 := getD_map_lt (fun i => Q.getD i 0) L k (0 : Nat) 0 hk'
          rw [e1, e2]
      · -- the returned magnitudes are the largest qualifying ones: the
        -- indices argsort left out of the final slice carry the remainder
        refine ⟨((np_argsort hts).take ((np_argsort hts).length - 5)).map
            (fun i => hts.getD i 0), ?_, ?_⟩
        · rw [hr2, hLd]
          refine List.Perm.trans (((List.reverse_perm _).map _).append_right _) ?_
          rw [← List.map_append]
          refine List.Perm.trans (List.perm_append_comm.map _) ?_
          rw [List.take_append_drop]
          refine List.Perm.trans ((np_argsort_perm hts).map _) ?_
          rw [map_getD_range hts 0]
        · intro a ha b hb
          rw [hr2] at hb
          obtain ⟨i, hi, rfl⟩ := List.mem_map.mp ha
          obtain ⟨j, hj, rfl⟩ := List.mem_map.mp hb
          have hj2 : j ∈ (np_argsort hts).drop ((np_argsort hts).length - 5) := by
            rw [hLd] at hj
            exact List.mem_reverse.mp hj
          have hsp : ((np_argsort hts).take ((np_argsort hts).length - 5)
              ++ (np_argsort hts).drop ((np_argsort hts).length - 5)).Pairwise
                (argRel hts) := by
            rw [List.take_append_drop]
            exact np_argsort_sorted hts
          exact argRel_le ((List.pairwise_append.mp hsp).2.2 i hi j hj2)
      · intro hQ5
        have hts5 : hts.length ≤ 5 := by
          rw [hhtslen]
          exact hQ5
        have hperm : L.Perm (List.range hts.length) := hL ▸ topIndices_of_le hts hts5
        have hTperm : (L.map (fun i => Q.getD i 0)).Perm Q := by
          have h1 : (List.range hts.length).map (fun i => Q.getD i 0) = Q := by
            rw [hhtslen]
            exact map_getD_range Q 0
          have h2 := hperm.map (fun i => Q.getD i 0)
          rw [h1] at h2
          exact h2
        exact ⟨hTperm.map (fun p => mf1.getD p 0), hTperm.map (fun p => mf2.getD p 0)⟩
      · intro hmfe
        exact absurd (by simp [hmfe]) hmf
    · rw [if_neg hq]
      have hQ : qualifyingPeaks mag freqs = [] := by
        cases hQl : qualifyingPeaks mag freqs with
        | nil => rfl
        | cons a t =>
            rw [hQl] at hq
            simp at hq
      refine ⟨rfl, by simp [hQ], List.sorted_nil, ?_, ?_, ?_, fun _ => rfl⟩
      · intro k hk
        simp at hk
      · refine ⟨[], by simp [hQ], ?_⟩
        intro a ha
        simp at ha
      · intro _
        constructor <;> simp [hQ]

/-- C3 (amended): main.py's `find_top_harmonics` restricts to the 0-60 Hz
band and returns exactly the `min 5 (number of qualifying peaks)` LARGEST
local maxima whose height is AT LEAST (not strictly above) 10% of the band
maximum, sorted by magnitude descending, with empty results instead of
errors on an empty band or an empty peak set; test.py's guardless variant
raises on an empty band (`np.max` of an empty array) and agrees with
main.py's version everywhere else. -/
theorem c3_peak_selection (mag freqs : List ℚ) (hlen : mag.length = freqs.length) :
    c3Prop mag freqs :=
  ⟨c3_core mag freqs hlen, test_find_top_harmonics_empty mag freqs,
   test_find_top_harmonics_agrees mag freqs⟩

/-- Witness for the amended C3 at a concrete spectrum. -/
theorem c3_peak_selection_witness :
    ([0, 10, 0, 1, 0] : List ℚ).length = ([0, 1, 2, 3, 4] : List ℚ).length ∧
    c3Prop [0, 10, 0, 1, 0] [0, 1, 2, 3, 4] :=
  ⟨rfl, c3_peak_selection _ _ rfl⟩

/-- C3 counterexample: on `mag = [0,10,0,1,0]`, `freqs = [0,1,2,3,4]` the
band maximum is 10, so a returned peak should exceed 1 in height; the code
nevertheless also returns the peak of height exactly 1 (the second entry),
because scipy's height filter is inclusive (`height ≥ threshold`). -/
theorem c3_counterexample :
    find_top_harmonics 5 [0, 10, 0, 1, 0] [0, 1, 2, 3, 4] = ([1, 3], [10, 1]) ∧
    ¬ ((1 : ℚ) > npMax (maskFilter [0, 10, 0, 1, 0] [0, 1, 2, 3, 4]).1 * (1 / 10)) := by
  constructor
  · norm_num [find_top_harmonics, find_peaks, maskFilter, npMax, localMaxima,
      localMaximaAux, plateauScan, np_argsort, topIndices, lastN,
      List.insertionSort, List.orderedInsert, argRel]
  · norm_num [maskFilter, npMax]
